import Mathlib

/-!
Shallow embedding of the MOA (mixture-of-agents) chain orchestration core
(`moa_chain` CLI, file `src/unnamed/part_000`), together with theorems
checking the natural-language specification against it.

JavaScript-level behaviour that the claims depend on is modelled
explicitly: string `trim`, first-occurrence `String.prototype.replace`
(including `$`-substitution patterns in the replacement string),
`String.prototype.includes`, truthiness of string-or-undefined values,
and number/string coercion in `+` and `*`.  JS numbers are modelled as
`Option JsRat` (`none` = NaN), `JsRat` an exact fraction; all theorem
inputs keep every arithmetic value a short exact decimal, where IEEE
doubles and exact fractions agree.

Effects (shell invocations of model backends, the filesystem behind XML
prompt files) are abstracted as oracle functions carried in an
environment; JS exceptions are modelled with `Except String`.  The
round-robin instance cursor, a piece of shared mutable state in the
source, is threaded explicitly.
-/

namespace MoaCli

/-- JS `String.prototype.trim` on character lists: drop leading and
trailing whitespace. -/
def trimChars (l : List Char) : List Char :=
  ((l.dropWhile Char.isWhitespace).reverse.dropWhile Char.isWhitespace).reverse

/-- JS `String.prototype.trim`. -/
def jsTrim (s : String) : String := String.mk (trimChars s.data)

/-- Locate the first occurrence of `pat` in a character list; returns the
characters before the match and the characters after it. -/
def findSubstring (pat : List Char) : List Char → Option (List Char × List Char)
  | [] => if pat.isPrefixOf ([] : List Char) then some ([], []) else none
  | c :: rest =>
    if pat.isPrefixOf (c :: rest) then some ([], (c :: rest).drop pat.length)
    else (findSubstring pat rest).map (fun p => (c :: p.1, p.2))

/-- JS `GetSubstitution` for a string (non-regex) pattern: in the
replacement text, `$$` inserts `$`, `$&` the matched text, a dollar
followed by a backquote the text before the match, a dollar followed by
an apostrophe the text after the match; any other `$` is literal. -/
def jsGetSubstitution (matched before after : List Char) : List Char → List Char
  | [] => []
  | c :: rest =>
    if c = '$' then
      match rest with
      | [] => ['$']
      | d :: rest2 =>
        if d = '$' then '$' :: jsGetSubstitution matched before after rest2
        else if d = '&' then matched ++ jsGetSubstitution matched before after rest2
        else if d = Char.ofNat 96 then before ++ jsGetSubstitution matched before after rest2
        else if d = Char.ofNat 39 then after ++ jsGetSubstitution matched before after rest2
        else '$' :: jsGetSubstitution matched before after (d :: rest2)
    else c :: jsGetSubstitution matched before after rest

/-- JS `s.replace(pat, rep)` with string arguments: replaces only the
FIRST occurrence of `pat`, applying `$`-substitution to `rep`. -/
def jsReplaceFirst (s pat rep : String) : String :=
  match findSubstring pat.data s.data with
  | none => s
  | some p => String.mk (p.1 ++ jsGetSubstitution pat.data p.1 p.2 rep.data ++ p.2)

/-- JS `s.includes(sub)`: substring containment. -/
def jsIncludes (s sub : String) : Bool := (findSubstring sub.data s.data).isSome

/-- JS `s.startsWith(pre)` (on character data). -/
def jsStartsWith (s pre : String) : Bool := List.isPrefixOf pre.data s.data

/-- JS `s.endsWith(post)` (on character data). -/
def jsEndsWith (s post : String) : Bool := List.isSuffixOf post.data s.data

/-- JS truthiness of a string-or-undefined value: `undefined` and `""`
are falsy. -/
def jsTruthy : Option String → Bool
  | none => false
  | some s => s != ""

/-- JS `a || b` where both sides are string-or-undefined. -/
def jsOrOpt (a b : Option String) : Option String :=
  match a with
  | none => b
  | some s => if s = "" then b else some s

/-- JS `a || d` where `a` is string-or-undefined and `d` a string. -/
def jsOrStr (a : Option String) (d : String) : String :=
  match a with
  | none => d
  | some s => if s = "" then d else s

/-- An exact (not necessarily reduced) fraction `num / den`, the model
of a finite JS number.  JS numbers reaching arithmetic in this program
originate from JSON decimal literals and decimal strings, all exactly
representable here; products of such values are represented exactly.
(IEEE rounding of non-dyadic intermediates is not modelled; every
theorem exercises only values on which IEEE doubles are exact.)  Kept
unreduced so that all arithmetic is plain `Int`/`Nat` computation. -/
structure JsRat where
  num : Int
  den : Nat := 1
deriving DecidableEq, Repr

/-- Product of two fractions. -/
def JsRat.mul (a b : JsRat) : JsRat := ⟨a.num * b.num, a.den * b.den⟩

/-- The fraction is an integer (denominator divides numerator). -/
def JsRat.isInt (q : JsRat) : Bool := q.num % (q.den : Int) == 0

/-- Numeric value of a run of decimal digits. -/
def digitsVal (l : List Char) : Nat :=
  l.foldl (fun a c => a * 10 + (c.toNat - 48)) 0

/-- JS `ToNumber` on a string (`none` = NaN), on the decimal fragment of
the grammar: optional sign, integer digits, optional fraction.  The
whitespace-only string converts to 0.  Hex, exponent and `Infinity`
forms are not modelled (no theorem exercises them). -/
def jsStringToNumber (s : String) : Option JsRat :=
  match trimChars s.data with
  | [] => some ⟨0, 1⟩
  | t =>
    let sr : Int × List Char :=
      match t with
      | c :: r => if c = '-' then (-1, r) else if c = '+' then (1, r) else (1, t)
      | [] => (1, t)
    let ip := sr.2.takeWhile Char.isDigit
    match sr.2.dropWhile Char.isDigit with
    | [] => if ip.isEmpty then none else some ⟨sr.1 * (digitsVal ip : Int), 1⟩
    | c :: fp =>
      if c = '.' ∧ fp.all Char.isDigit ∧ (ip ≠ [] ∨ fp ≠ []) then
        some ⟨sr.1 * ((digitsVal ip * 10 ^ fp.length + digitsVal fp : Nat) : Int),
              10 ^ fp.length⟩
      else none

/-- Least number of decimal fraction digits (up to 20) that renders `q`
exactly, if any. -/
def decDigitsLen (q : JsRat) : Option Nat :=
  (List.range 21).find? (fun k => q.num * ((10 ^ k : Nat) : Int) % (q.den : Int) == 0)

/-- JS number-to-string coercion (`none` = NaN prints "NaN").  Exact for
integers and short decimal fractions — the only values the theorems
exercise, and values on which IEEE shortest-round-trip printing agrees
with exact decimal printing.  Other rationals fall back to a fraction
rendering that no theorem relies on. -/
def jsNumToString : Option JsRat → String
  | none => "NaN"
  | some q =>
    if q.isInt then toString (q.num / (q.den : Int))
    else
      match decDigitsLen q with
      | some k =>
        let n := q.num * ((10 ^ k : Nat) : Int) / (q.den : Int)
        let sign := if n < 0 then "-" else ""
        let ds := (toString n.natAbs).data
        let padded := List.replicate (k + 1 - ds.length) '0' ++ ds
        sign ++ String.mk (padded.take (padded.length - k)) ++ "." ++
          String.mk (padded.drop (padded.length - k))
      | none => toString q.num ++ "/" ++ toString q.den

/-- JS `*` on number-or-NaN values (NaN propagates; `undefined` operands
also behave as NaN and are encoded as `none`). -/
def jsMul (a b : Option JsRat) : Option JsRat :=
  match a, b with
  | some x, some y => some (x.mul y)
  | _, _ => none

/-! ## Data model (interfaces of the source) -/

/-- Source `interface OllamaInstance`. -/
structure OllamaInstance where
  uri : String
  name : Option String := none
  priority : Option Int := none
deriving DecidableEq, Repr

/-- Source `interface Agent`. -/
structure Agent where
  name : String
  model : String
  temperature : Option JsRat := none
  promptTemplate : String
  systemPrompt : Option String := none
deriving DecidableEq, Repr

/-- Source `interface AgentConfig extends Agent`. -/
structure AgentConfig extends Agent where
  instanceUri : Option String := none
deriving DecidableEq, Repr

/-- Source `interface AggregationStrategy`.  `method` is kept as a string: the
configuration is produced by `JSON.parse` with no runtime validation,
so at run time any string can occupy the field (the TS union type is
erased); the `switch` in `aggregateResponses` routes unrecognized
methods to the `default` arm. -/
structure AggregationStrategy where
  method : String
  promptTemplate : Option String := none
  weights : Option (List JsRat) := none
deriving DecidableEq, Repr

/-- Source `interface ModelResponse`.  Metadata values in the source are the
three numeric fields set on normal chain completion, so a finite
string-to-number map suffices. -/
structure ModelResponse where
  content : String
  metadata : Option (List (String × Nat)) := none
  error : Option String := none
deriving DecidableEq, Repr

/-- Source `interface Layer`. -/
structure Layer where
  name : String
  agents : List Agent
  aggregationStrategy : AggregationStrategy
deriving DecidableEq, Repr

/-- Source `interface MOAConfig`.  The stop predicate is an arbitrary JS
function and may throw, hence `Except String Bool`. -/
structure MOAConfig where
  layers : List Layer
  maxIterations : Nat
  stopCriteria : Option (List ModelResponse → Except String Bool) := none

/-- Result type of `readXMLPrompt`. -/
structure PromptResult where
  systemPrompt : Option String := none
  template : String
deriving DecidableEq, Repr

/-! ## Endpoint selector (`getNextInstance`, lines 75–83)

The mutable module-level cursor `currentInstanceIndex` is threaded
explicitly.  The source indexes `ollamaInstances[currentInstanceIndex]`
directly; an out-of-range cursor would yield JS `undefined`, modelled
by `Option` (the cursor invariant `cur < length` makes this
unreachable, which theorem `C6` exploits). -/

def getNextInstance (instances : List OllamaInstance) (cur : Nat) :
    Option OllamaInstance × Nat :=
  if instances.length = 0 then (some { uri := "http://localhost:11434" }, cur)
  else (instances.get? cur, (cur + 1) % instances.length)

/-- Cursor value after `n` calls to `getNextInstance`, starting at 0. -/
def cursorAfter (instances : List OllamaInstance) : Nat → Nat
  | 0 => 0
  | n + 1 => (getNextInstance instances (cursorAfter instances n)).2

/-- Result of call number `n+1` (0-indexed `n`) to `getNextInstance`,
starting from cursor 0. -/
def nthCallResult (instances : List OllamaInstance) (n : Nat) : Option OllamaInstance :=
  (getNextInstance instances (cursorAfter instances n)).1

/-! ## Prompt resolver (`readXMLPrompt`, lines 119–164)

The DOM produced by `DOMParser` is modelled as the document-order list
of its elements (tag name and `textContent`); `getElementsByTagName(t)[0]`
is the first element of tag `t`.  The filesystem and parser are an
oracle `fs` mapping the resolved path to a document or a thrown error
(covering the not-found and 1 MB size checks of lines 127–137, whose
error messages no claim exercises); `path.resolve` is an oracle
`resolvePath`.  The `try`/`catch` of lines 139–163 logs and rethrows,
which is the identity on the error semantics. -/

/-- A DOM element: tag name and `textContent` (`none` = null). -/
structure XMLElement where
  tagName : String
  textContent : Option String := none
deriving DecidableEq, Repr

/-- Evaluation of `doc.getElementsByTagName(tag)[0]` over the flattened document. -/
def getElementsByTagNameFirst (doc : List XMLElement) (tag : String) : Option XMLElement :=
  (doc.filter (fun e => e.tagName = tag)).head?

/-- Lines 144–159 of `readXMLPrompt`: structure validation and
extraction.  `systemElement?.textContent?.trim()` propagates absence;
`templateElement?.textContent?.trim() || ''` defaults to the empty
string. -/
def parseXMLPrompt (doc : List XMLElement) : Except String PromptResult :=
  match getElementsByTagNameFirst doc "prompt" with
  | none => .error "Invalid XML: missing root <prompt> element"
  | some _ =>
    match getElementsByTagNameFirst doc "template" with
    | none => .error "Invalid XML: missing <template> element"
    | some templateElement =>
      .ok { systemPrompt :=
              (getElementsByTagNameFirst doc "system").bind
                (fun e => e.textContent.map jsTrim),
            template := jsOrStr (templateElement.textContent.map jsTrim) "" }

/-- Function `readXMLPrompt`: path guard (lines 121–125: reject unless the
resolved path CONTAINS the current working directory as a substring),
then filesystem access, then parse. -/
def readXMLPrompt (fs : String → Except String (List XMLElement))
    (resolvePath : String → String) (cwd : String) (promptFile : String) :
    Except String PromptResult :=
  let resolvedPath := resolvePath promptFile
  if !(jsIncludes resolvedPath cwd) then
    .error "File path must be within current working directory"
  else
    match fs resolvedPath with
    | .error e => .error e
    | .ok doc => parseXMLPrompt doc

/-- A path is inside the working directory `cwd` when it is `cwd`
itself or lies below it. -/
def insideCwd (cwd p : String) : Prop :=
  p = cwd ∨ List.isPrefixOf (cwd ++ "/").data p.data

/-! ## Environment of effects

Shell invocations (`ollama run`, `llm -m`) and XML prompt resolution
are oracles; the configured instance list and the `SYNTHESIS_MODEL`
environment constant (default `"ollama:qwen2.5-coder:7b-instruct-fp16"`)
are carried alongside. `resolveXML` abstracts `readXMLPrompt` as
invoked from `processLayer`/`aggregateResponses` (path guard,
filesystem and parse folded into one oracle). -/

/-- A backend shell invocation, as issued by `runModel`. -/
inductive ShellCmd where
  | ollama (host modelName prompt : String)
  | llm (modelName prompt : String)
deriving DecidableEq, Repr

structure Env where
  shell : ShellCmd → Except String String
  resolveXML : String → Except String PromptResult
  instances : List OllamaInstance
  synthesisModel : String := "ollama:qwen2.5-coder:7b-instruct-fp16"

/-! ## Agent invoker (`runModel`, lines 182–212)

The whole body sits in a `try` whose `catch` rewraps any error as
`Error running model <model>: <message>`; a success is
`{ content: output.trim() }` guarded by the empty-output check. -/

def runModel (env : Env) (cur : Nat) (agent : AgentConfig) (prompt : String) :
    Except String ModelResponse × Nat :=
  let uriCur : Except String String × Nat :=
    match agent.instanceUri with
    | some u => (.ok u, cur)
    | none =>
      match getNextInstance env.instances cur with
      | (some inst, c) => (.ok inst.uri, c)
      | (none, c) => (.error "undefined is not an object", c)
  match uriCur with
  | (.error e, c) => (.error ("Error running model " ++ agent.model ++ ": " ++ e), c)
  | (.ok instanceUri, c) =>
    let output : Except String String :=
      if jsStartsWith agent.model "ollama:" then
        env.shell (.ollama instanceUri (jsReplaceFirst agent.model "ollama:" "") prompt)
      else if jsStartsWith agent.model "llm:" then
        env.shell (.llm (jsReplaceFirst agent.model "llm:" "") prompt)
      else .error ("Unsupported model prefix in: " ++ agent.model)
    match output with
    | .error e => (.error ("Error running model " ++ agent.model ++ ": " ++ e), c)
    | .ok out =>
      if out = "" ∨ (jsTrim out).length = 0 then
        (.error ("Error running model " ++ agent.model ++ ": Model returned empty response"), c)
      else (.ok { content := jsTrim out }, c)

/-! ## Layer processor (`processLayer`, lines 214–244)

Per agent: a round-robin instance is drawn (used only for the debug
log), the prompt template is resolved (XML file reference or inline),
the two placeholders are substituted with JS first-occurrence
`replace`, and `runModel` is invoked with the substituted prompt.
`Promise.all` keeps responses in agent order and rejects with the
first failure; the per-agent synchronous prefixes make the modelled
sequential cursor order exact for inline templates (XML references
suspend earlier, which can permute cursor draws between agents — no
claim depends on which instance an agent lands on).  The list of
substituted prompts, in agent order, is returned alongside the
responses (the source logs each). -/

/-- Lines 226–234: template resolution for one agent — read the XML
document when the template is a `.xml` file path, with the document's
system prompt falling back (JS `||`) to the agent's own. -/
def resolveAgentTemplate (env : Env) (agent : Agent) :
    Except String (String × Option String) :=
  if jsEndsWith agent.promptTemplate ".xml" then
    match env.resolveXML agent.promptTemplate with
    | .error e => .error e
    | .ok xmlPrompt =>
      .ok (xmlPrompt.template, jsOrOpt xmlPrompt.systemPrompt agent.systemPrompt)
  else .ok (agent.promptTemplate, agent.systemPrompt)

/-- Lines 236–238: the two placeholder substitutions (JS
first-occurrence `replace`, sequential). -/
def buildContextualPrompt (input : String) (previousResponses : List ModelResponse)
    (promptContent : String) : String :=
  jsReplaceFirst (jsReplaceFirst promptContent "{input}" input)
    "{previous_responses}"
    (String.intercalate "\n" (previousResponses.map (fun r => r.content)))

def processAgents (env : Env) (input : String)
    (previousResponses : List ModelResponse) :
    List Agent → Nat → Except String (List ModelResponse × List String) × Nat
  | [], cur => (.ok ([], []), cur)
  | agent :: rest, cur =>
    match resolveAgentTemplate env agent with
    | .error e => (.error e, (getNextInstance env.instances cur).2)
    | .ok (promptContent, systemPrompt) =>
      match runModel env (getNextInstance env.instances cur).2
          { agent with
              promptTemplate := buildContextualPrompt input previousResponses promptContent,
              systemPrompt := systemPrompt, instanceUri := none }
          (buildContextualPrompt input previousResponses promptContent) with
      | (.error e, cur2) => (.error e, cur2)
      | (.ok resp, cur2) =>
        match processAgents env input previousResponses rest cur2 with
        | (.error e, cur3) => (.error e, cur3)
        | (.ok (rs, prompts), cur3) =>
          (.ok (resp :: rs,
                buildContextualPrompt input previousResponses promptContent :: prompts),
           cur3)

def processLayer (env : Env) (cur : Nat) (layer : Layer) (input : String)
    (previousResponses : List ModelResponse) :
    Except String (List ModelResponse × List String) × Nat :=
  processAgents env input previousResponses layer.agents cur

/-! ## Aggregator (`aggregateResponses`, lines 246–295) -/

/-- Lines 167–181: the default synthesis template (note the doubled
braces around `responses` in the source literal). -/
def DEFAULT_AGGREGATION_TEMPLATE : String :=
  "\nYou are tasked with synthesizing multiple responses to create a comprehensive and accurate final answer.\n\nPrevious responses:\n{{responses}}\n\nPlease analyze these responses and:\n1. Identify common themes and key points\n2. Note any contradictions or inconsistencies\n3. Synthesize a final response that:\n- Incorporates the best elements from each response\n- Resolves any contradictions\n- Provides a coherent and complete answer\n\nFinal synthesized response:"

/-- The `switch (strategy.method)` of `aggregateResponses`
(lines 260–294), after the strategy's `.xml` prompt template (if any)
has been resolved; `responses = r0 :: rest`, nonempty at this point. -/
def aggregateDispatch (env : Env) (cur : Nat) (r0 : ModelResponse)
    (rest : List ModelResponse) (strat : AggregationStrategy) :
    Except String (ModelResponse × AggregationStrategy) × Nat :=
  let responses := r0 :: rest
  if strat.method = "synthesis" then
        let synthesisAgent : Agent :=
          { name := "synthesizer", model := env.synthesisModel,
            promptTemplate := jsOrStr strat.promptTemplate DEFAULT_AGGREGATION_TEMPLATE }
        let synthesisPrompt :=
          jsReplaceFirst synthesisAgent.promptTemplate "{responses}"
            (String.intercalate "\n\n"
              (responses.enum.map
                (fun p => "Response " ++ toString (p.1 + 1) ++ ":\n" ++ p.2.content)))
        match runModel env cur ⟨synthesisAgent, none⟩ synthesisPrompt with
        | (.error e, c) => (.error e, c)
        | (.ok resp, c) => (.ok (resp, strat), c)
      else if strat.method = "weighted" then
        let ws : List JsRat :=
          match strat.weights with
          | some w => w
          | none => responses.map (fun _ => ⟨1, responses.length⟩)
        let weightedContent :=
          ((responses.map (fun r => jsTrim r.content)).enum).foldl
            (fun acc p =>
              acc ++ jsNumToString (jsMul (jsStringToNumber p.2) (ws.get? p.1))) ""
        (.ok ({ content := weightedContent }, strat), cur)
      else if strat.method = "voting" then
        (.ok ({ content := r0.content }, strat), cur)
      else
        (.ok ({ content :=
                  String.intercalate "\n\n" (responses.map (fun r => jsTrim r.content)) },
              strat), cur)

/-- Function `aggregateResponses`: empty check, `.xml` prompt-template resolution
(with write-back into the strategy), then the method switch.  The
source MUTATES its `strategy` argument when the prompt template is an
`.xml` reference (line 257); the updated strategy is therefore returned
alongside the response.  The `weighted` arm reduces with a string
accumulator starting at `""`, so JS `+` concatenates the stringified
per-response products; `weights[i]` beyond the weight list is
`undefined`, making the product NaN.  An empty response list
short-circuits before any oracle is consulted. -/
def aggregateResponses (env : Env) (cur : Nat) (responses : List ModelResponse)
    (strategy : AggregationStrategy) :
    Except String (ModelResponse × AggregationStrategy) × Nat :=
  match responses with
  | [] => (.ok ({ content := "", error := some "No responses to aggregate" }, strategy), cur)
  | r0 :: rest =>
    let resolved : Except String AggregationStrategy :=
      match strategy.promptTemplate with
      | some t =>
        if jsEndsWith t ".xml" then
          match env.resolveXML t with
          | .error e => .error e
          | .ok xmlPrompt => .ok { strategy with promptTemplate := some xmlPrompt.template }
        else .ok strategy
      | none => .ok strategy
    match resolved with
    | .error e => (.error e, cur)
    | .ok strat => aggregateDispatch env cur r0 rest strat

/-! ## Chain controller (`runMOAChain`, lines 297–372)

The per-iteration walk over the layers rebuilds the layer list so that
the strategy mutation performed by `aggregateResponses` persists into
later iterations, as object aliasing makes it persist in the source.
The count of layers processed (one per aggregation appended to the
history) is returned for the temporal claims.  Every JS `throw` inside
the `try` of lines 311–365 is an `Except.error` here; the `catch` of
lines 366–371 converts it into the error-bearing final response. -/

def runLayerSeq (env : Env) (stop : Option (List ModelResponse → Except String Bool)) :
    List Layer → List Layer → String → List ModelResponse → Nat → Nat →
    Except String ((ModelResponse × List ModelResponse × Nat × Nat) ⊕
                   (List Layer × String × List ModelResponse × Nat × Nat))
  | [], done, input, responses, cur, count => .ok (.inr (done, input, responses, cur, count))
  | layer :: rest, done, input, responses, cur, count =>
    match processLayer env cur layer input responses with
    | (.error e, _) => .error e
    | (.ok (layerResponses, _prompts), cur1) =>
      match layerResponses.filter (fun r => jsTruthy r.error) with
      | e0 :: _ =>
        .error ("Layer " ++ layer.name ++ " execution failed: " ++ e0.error.getD "")
      | [] =>
        match aggregateResponses env cur1 layerResponses layer.aggregationStrategy with
        | (.error e, _) => .error e
        | (.ok (aggregated, strat), cur2) =>
          let responses1 := responses ++ [aggregated]
          let count1 := count + 1
          let layer1 := { layer with aggregationStrategy := strat }
          match stop with
          | none =>
            runLayerSeq env stop rest (done ++ [layer1]) aggregated.content responses1 cur2 count1
          | some f =>
            match f responses1 with
            | .error e => .error e
            | .ok true => .ok (.inl (aggregated, responses1, cur2, count1))
            | .ok false =>
              runLayerSeq env stop rest (done ++ [layer1]) aggregated.content responses1 cur2 count1

def runIters (env : Env) (stop : Option (List ModelResponse → Except String Bool)) :
    Nat → List Layer → String → List ModelResponse → Nat → Nat →
    Except String (Option ModelResponse × String × List ModelResponse × Nat × Nat)
  | 0, _layers, input, responses, cur, count => .ok (none, input, responses, cur, count)
  | n + 1, layers, input, responses, cur, count =>
    match runLayerSeq env stop layers [] input responses cur count with
    | .error e => .error e
    | .ok (.inl (resp, hist, c, k)) => .ok (some resp, resp.content, hist, c, k)
    | .ok (.inr (layers1, input1, hist, c, k)) => runIters env stop n layers1 input1 hist c k

/-- The body of the `try` block of `runMOAChain`: final response,
response history, and number of layers processed — or the first thrown
error. `config.maxIterations || 1` defaults a falsy (0) count to 1.
The instance cursor entering the run is taken as 0 (in the CLI the
ambient cursor may have advanced during model preloading; no claim
depends on its initial value). -/
def chainBody (env : Env) (config : MOAConfig) (initialInput : String) :
    Except String (ModelResponse × List ModelResponse × Nat) :=
  let maxIterations := if config.maxIterations = 0 then 1 else config.maxIterations
  match runIters env config.stopCriteria maxIterations config.layers initialInput [] 0 0 with
  | .error e => .error e
  | .ok (some resp, _, hist, _, count) => .ok (resp, hist, count)
  | .ok (none, currentInput, hist, _, count) =>
    .ok ({ content := currentInput,
           metadata := some [("iterations", config.maxIterations),
                             ("totalResponses", hist.length),
                             ("finalResponseLength", currentInput.length)] },
         hist, count)

/-- Function `runMOAChain`: the outermost `try`/`catch`. -/
def runMOAChain (env : Env) (config : MOAConfig) (initialInput : String) : ModelResponse :=
  match chainBody env config initialInput with
  | .ok (resp, _, _) => resp
  | .error e => { content := "", error := some ("Error in MOA chain: " ++ e) }

/-! ## Spec-side definition for the substitution refinement claim -/

/-- Literal replacement of every occurrence of `pat` (nonempty),
scanning left to right; the fuel argument (instantiated with the text
length, an upper bound on the number of scan steps) keeps the recursion
structural. -/
def replaceAllCharsAux (pat rep : List Char) : Nat → List Char → List Char
  | 0, l => l
  | _ + 1, [] => []
  | fuel + 1, c :: rest =>
    if pat ≠ [] ∧ pat.isPrefixOf (c :: rest) then
      rep ++ replaceAllCharsAux pat rep fuel (rest.drop (pat.length - 1))
    else c :: replaceAllCharsAux pat rep fuel rest

/-- Replace every occurrence of `pat` in `s` by `rep`, literally. -/
def specReplaceAll (s pat rep : String) : String :=
  String.mk (replaceAllCharsAux pat.data rep.data s.data.length s.data)

/-- Modelled from the spec's words (§4.4, §6): substitute the recognized
placeholders — every occurrence, inserted literally — into the
template, current input first.  Declared only to compare the spec's
reading of substitution with the source's first-occurrence
`String.prototype.replace`. -/
def specSubstitute (template input joined : String) : String :=
  specReplaceAll (specReplaceAll template "{input}" input) "{previous_responses}" joined

/-! ## Shared concrete test fixtures -/

/-- Shell oracle that answers every backend call with `"hello"`. -/
def stubShell : ShellCmd → Except String String := fun _ => .ok "hello"

/-- Prompt-resolution oracle: every document resolves to template `"T"`. -/
def stubResolve : String → Except String PromptResult :=
  fun _ => .ok { template := "T" }

/-- Environment with no configured instances and the stub oracles. -/
def testEnv : Env := { shell := stubShell, resolveXML := stubResolve, instances := [] }

/-- One-agent layer whose template mentions `{input}` twice. -/
def testLayer : Layer :=
  { name := "L",
    agents := [{ name := "a1", model := "ollama:m",
                 promptTemplate := "{input} and {input}" }],
    aggregationStrategy := { method := "concatenate" } }

/-- Shared pipeline configuration whose stop predicate always fires. -/
def stopConfig : MOAConfig :=
  { layers := [testLayer, testLayer], maxIterations := 5,
    stopCriteria := some (fun _ => .ok true) }

/-- Document stub for the path-guard claim: a well-formed prompt document. -/
def evilDoc : List XMLElement :=
  [{ tagName := "prompt" }, { tagName := "template", textContent := some " T " }]

/-- Filesystem oracle delivering `evilDoc` at every path. -/
def evilFs : String → Except String (List XMLElement) := fun _ => .ok evilDoc

/-- Shared concrete endpoint pair for the selector witness. -/
def twoInstances : List OllamaInstance := [{ uri := "u0" }, { uri := "u1" }]

/-- Shared well-formed prompt document for the resolver witness. -/
def wfDoc : List XMLElement :=
  [{ tagName := "prompt" }, { tagName := "system", textContent := some " S " },
   { tagName := "template", textContent := some " T " }]

/-! ## Helper lemmas -/

theorem trimChars_eq_rdrop (m : List Char) :
    trimChars m = List.rdropWhile Char.isWhitespace (List.dropWhile Char.isWhitespace m) :=
  rfl

theorem trimChars_idem (l : List Char) : trimChars (trimChars l) = trimChars l := by
  have h1 : List.dropWhile Char.isWhitespace (trimChars l) = trimChars l := by
    rw [List.dropWhile_eq_self_iff]
    intro hl
    have hpre : trimChars l <+: List.dropWhile Char.isWhitespace l :=
      List.rdropWhile_prefix Char.isWhitespace (List.dropWhile Char.isWhitespace l)
    have hlen : 0 < (List.dropWhile Char.isWhitespace l).length :=
      lt_of_lt_of_le hl hpre.length_le
    have hy0 := List.dropWhile_get_zero_not Char.isWhitespace l hlen
    simp only [List.get_eq_getElem] at hy0 ⊢
    rw [← hpre.getElem hl] at hy0
    exact hy0
  calc trimChars (trimChars l)
      = List.rdropWhile Char.isWhitespace
          (List.dropWhile Char.isWhitespace (trimChars l)) := rfl
    _ = List.rdropWhile Char.isWhitespace (trimChars l) := by rw [h1]
    _ = List.rdropWhile Char.isWhitespace
          (List.rdropWhile Char.isWhitespace (List.dropWhile Char.isWhitespace l)) := by
        rw [trimChars_eq_rdrop]
    _ = trimChars l := by rw [List.rdropWhile_idempotent, ← trimChars_eq_rdrop]

theorem jsTrim_idem (s : String) : jsTrim (jsTrim s) = jsTrim s := by
  show String.mk (trimChars (String.mk (trimChars s.data)).data) = jsTrim s
  rw [show (String.mk (trimChars s.data)).data = trimChars s.data from rfl,
    trimChars_idem]
  rfl

/-- Cursor invariant of the round-robin selector: after `n` calls the
cursor equals `n` modulo the instance count. -/
theorem cursorAfter_eq_mod (instances : List OllamaInstance)
    (hK : instances.length ≠ 0) (n : Nat) :
    cursorAfter instances n = n % instances.length := by
  induction n with
  | zero => simp [cursorAfter, Nat.zero_mod]
  | succ n ih =>
    rw [cursorAfter, ih, getNextInstance, if_neg hK]
    show (n % instances.length + 1) % instances.length = (n + 1) % instances.length
    exact Nat.mod_add_mod n instances.length 1

/-! ## Claims -/

/-- C1.  The claim states that weighted aggregation with default uniform
weights over N copies of the numeric string v returns v for every N.  The
code's reduce starts from the string accumulator `""`, so JS `+`
concatenates the stringified products instead of summing them: at N = 2,
v = "6" (every product 6·(1/2) = 3 exact, so IEEE and exact arithmetic
coincide) the result is "33", not "6".  This theorem evaluates the
embedded code at that failing input. -/
theorem C1_weighted_uniform_concatenates_not_sums :
    (aggregateResponses testEnv 0 [{ content := "6" }, { content := "6" }]
        { method := "weighted" }).1 =
      .ok ({ content := "33" }, { method := "weighted" }) ∧
    ("33" : String) ≠ "6" := by
  exact ⟨rfl, by decide⟩

/-- C2.  The claim states that prompt resolution rejects every reference
resolving outside the current working directory.  The guard (line 123)
tests `resolvedPath.includes(process.cwd())` — substring containment,
not prefix containment — so the absolute path
"/tmp/home/user/evil.xml", which lies outside the working directory
"/home/user", passes the guard and resolution succeeds, returning the
file's content. -/
theorem C2_path_guard_accepts_outside_path :
    readXMLPrompt evilFs id "/home/user" "/tmp/home/user/evil.xml" =
      .ok { systemPrompt := none, template := "T" } ∧
    ¬ insideCwd "/home/user" "/tmp/home/user/evil.xml" := by
  refine ⟨rfl, ?_⟩
  intro h
  rcases h with h | h
  · exact absurd h (by decide)
  · exact absurd h (by decide)

/-- C8.  Aggregating the empty response list yields the error-bearing
response with empty content and leaves the strategy untouched, for every
strategy (the `method` field is an arbitrary runtime string, so this
covers voting, synthesis, concatenate, weighted and unrecognized
methods) and for every environment of oracles — the result does not
depend on the model or prompt-resolution oracles, which is the formal
content of "without invoking any model or resolving any prompt
document": the empty check precedes both (line 250). -/
theorem C8_empty_aggregation_error :
    ∀ (env : Env) (cur : Nat) (strategy : AggregationStrategy),
      aggregateResponses env cur [] strategy =
        (.ok ({ content := "", error := some "No responses to aggregate" }, strategy), cur) :=
  fun _ _ _ => rfl

/-- C6.  Round-robin endpoint selection: with K ≥ 1 configured
endpoints and the cursor starting at 0, the n-th call (n ≥ 1) returns
endpoint number (n−1) mod K — in particular a real endpoint, never the
out-of-range `undefined` — so call K+1 returns the same endpoint as
call 1; with zero endpoints every call returns the fixed localhost
fallback. -/
theorem C6_round_robin_selection :
    ∀ (instances : List OllamaInstance) (K : Nat), instances.length = K →
      ((1 ≤ K → ∀ n : Nat, 1 ≤ n →
          nthCallResult instances (n - 1) = instances.get? ((n - 1) % K) ∧
          ∃ inst, nthCallResult instances (n - 1) = some inst) ∧
       (1 ≤ K → nthCallResult instances 0 = nthCallResult instances K) ∧
       (K = 0 → ∀ n : Nat,
          nthCallResult instances n = some { uri := "http://localhost:11434" })) := by
  intro instances K hK
  refine ⟨?_, ?_, ?_⟩
  · intro hK1 n _
    have hKne : instances.length ≠ 0 := by rw [hK]; omega
    have h1 : nthCallResult instances (n - 1) =
        instances.get? ((n - 1) % instances.length) := by
      unfold nthCallResult
      rw [cursorAfter_eq_mod instances hKne, getNextInstance, if_neg hKne]
    refine ⟨by rw [h1, hK], ?_⟩
    have hlt : (n - 1) % instances.length < instances.length :=
      Nat.mod_lt _ (Nat.pos_of_ne_zero hKne)
    exact ⟨_, by rw [h1]; exact List.get?_eq_get hlt⟩
  · intro hK1
    have hKne : instances.length ≠ 0 := by rw [hK]; omega
    unfold nthCallResult
    rw [cursorAfter_eq_mod instances hKne, cursorAfter_eq_mod instances hKne,
      Nat.zero_mod, show K % instances.length = 0 by rw [hK]; exact Nat.mod_self _]
  · intro hK0 n
    have hnil : instances = [] := List.length_eq_zero.mp (by rw [hK, hK0])
    subst hnil
    unfold nthCallResult getNextInstance
    simp

/-- C6 witness: two endpoints, third call returns endpoint (3−1) mod 2 = 0;
also call 1 and call K+1 = 3 agree; and with zero endpoints call 5
returns the localhost fallback. -/
theorem C6_round_robin_selection_witness :
    (nthCallResult twoInstances (3 - 1) = twoInstances.get? ((3 - 1) % 2) ∧
      ∃ inst, nthCallResult twoInstances (3 - 1) = some inst) ∧
    nthCallResult twoInstances 0 = nthCallResult twoInstances 2 ∧
    nthCallResult [] 4 = some { uri := "http://localhost:11434" } :=
  ⟨(C6_round_robin_selection twoInstances 2 rfl).1 (by decide) 3 (by decide),
   (C6_round_robin_selection twoInstances 2 rfl).2.1 (by decide),
   (C6_round_robin_selection [] 0 rfl).2.2 rfl 4⟩

/-- C7.  Prompt-document resolution: a document with a `prompt` root and
a `template` element with text T resolves to template `trim(T)` (the
`|| ''` default makes no difference: if `trim(T)` is empty the result
is the empty string either way); a `system` element with text S yields
systemPrompt `trim(S)`, an absent `system` element yields an absent
systemPrompt; an absent `template` element raises the
missing-`<template>` error instead of returning. -/
theorem C7_prompt_document_resolution :
    ∀ (doc : List XMLElement),
      getElementsByTagNameFirst doc "prompt" ≠ none →
      ((∀ e T, getElementsByTagNameFirst doc "template" = some e →
          e.textContent = some T →
          ∃ res, parseXMLPrompt doc = .ok res ∧ res.template = jsTrim T ∧
            (∀ e2 S, getElementsByTagNameFirst doc "system" = some e2 →
              e2.textContent = some S → res.systemPrompt = some (jsTrim S)) ∧
            (getElementsByTagNameFirst doc "system" = none → res.systemPrompt = none)) ∧
       (getElementsByTagNameFirst doc "template" = none →
          parseXMLPrompt doc = .error "Invalid XML: missing <template> element")) := by
  intro doc hp
  obtain ⟨pe, hpe⟩ : ∃ pe, getElementsByTagNameFirst doc "prompt" = some pe := by
    cases h : getElementsByTagNameFirst doc "prompt" with
    | none => exact absurd h hp
    | some pe => exact ⟨pe, rfl⟩
  constructor
  · intro e T hte htc
    refine ⟨_, by unfold parseXMLPrompt; rw [hpe, hte], ?_, ?_, ?_⟩
    · show jsOrStr (e.textContent.map jsTrim) "" = jsTrim T
      rw [htc]
      show (if jsTrim T = "" then "" else jsTrim T) = jsTrim T
      split
      · next h => exact h.symm
      · rfl
    · intro e2 S hse hsc
      show ((getElementsByTagNameFirst doc "system").bind
        (fun el => el.textContent.map jsTrim)) = some (jsTrim S)
      rw [hse]
      show e2.textContent.map jsTrim = some (jsTrim S)
      rw [hsc]
      rfl
    · intro hs
      show ((getElementsByTagNameFirst doc "system").bind
        (fun el => el.textContent.map jsTrim)) = none
      rw [hs]
      rfl
  · intro ht
    unfold parseXMLPrompt
    rw [hpe, ht]

/-- C3.  The chain controller is total: for every environment, pipeline
configuration and initial input it returns a `ModelResponse` — the
successful body result when the body (layer processing, aggregation and
stop-predicate evaluation, any of which may throw) succeeds, and
otherwise an error-bearing response wrapping the thrown message behind
the descriptive prefix; no exception escapes (`runMOAChain`'s return
type is exception-free by construction of the catch-all). -/
theorem C3_chain_controller_total :
    ∀ (env : Env) (config : MOAConfig) (input : String),
      (∃ r hist count, chainBody env config input = .ok (r, hist, count) ∧
          runMOAChain env config input = r) ∨
      (∃ e, chainBody env config input = .error e ∧
          runMOAChain env config input =
            { content := "", metadata := none,
              error := some ("Error in MOA chain: " ++ e) }) := by
  intro env config input
  cases h : chainBody env config input with
  | ok t =>
    refine .inl ⟨t.1, t.2.1, t.2.2, rfl, ?_⟩
    unfold runMOAChain
    rw [h]
  | error e =>
    refine .inr ⟨e, rfl, ?_⟩
    unfold runMOAChain
    rw [h]

/-- The method switch never changes the (already resolved) strategy it
dispatches on. -/
theorem aggregateDispatch_strategy_eq (env : Env) (cur : Nat) (r0 : ModelResponse)
    (rest : List ModelResponse) (strat : AggregationStrategy) (r : ModelResponse)
    (strat' : AggregationStrategy) (cur' : Nat) :
    aggregateDispatch env cur r0 rest strat = (.ok (r, strat'), cur') → strat' = strat := by
  intro h
  simp only [aggregateDispatch] at h
  split at h
  · -- synthesis: case on the backend invocation's outcome
    split at h
    · exact absurd h (by simp)
    · simp only [Prod.mk.injEq, Except.ok.injEq] at h
      exact h.1.2.symm
  · split at h
    · simp only [Prod.mk.injEq, Except.ok.injEq] at h
      exact h.1.2.symm
    · split at h
      · simp only [Prod.mk.injEq, Except.ok.injEq] at h
        exact h.1.2.symm
      · simp only [Prod.mk.injEq, Except.ok.injEq] at h
        exact h.1.2.symm

/-- C4 counterexample.  The claim states the aggregation strategy
object is unchanged by every aggregation call.  With promptTemplate
"agg.xml" resolving to template "T", the call returns a strategy whose
promptTemplate has been overwritten to "T" — the source assigns
`strategy.promptTemplate = xmlPrompt.template` (line 257), mutating the
configured strategy. -/
theorem C4_strategy_mutated_counterexample :
    (aggregateResponses testEnv 0 [{ content := "a" }]
        { method := "concatenate", promptTemplate := some "agg.xml" }).1 =
      .ok ({ content := "a" },
           { method := "concatenate", promptTemplate := some "T" }) ∧
    ({ method := "concatenate", promptTemplate := some "T" } : AggregationStrategy) ≠
      { method := "concatenate", promptTemplate := some "agg.xml" } :=
  ⟨rfl, by decide⟩

/-- C4 amended.  An aggregation call leaves the strategy's method and
weights unchanged, and leaves the strategy entirely unchanged whenever
its prompt template is not an `.xml` document reference; only for an
`.xml` reference is the promptTemplate field overwritten with the
resolved template (resolution caching observed by later iterations). -/
theorem C4_strategy_preserved_unless_xml :
    ∀ (env : Env) (cur : Nat) (responses : List ModelResponse)
      (strategy : AggregationStrategy) (r : ModelResponse)
      (strat' : AggregationStrategy) (cur' : Nat),
      aggregateResponses env cur responses strategy = (.ok (r, strat'), cur') →
      strat'.method = strategy.method ∧ strat'.weights = strategy.weights ∧
      ((∀ t, strategy.promptTemplate = some t → jsEndsWith t ".xml" = false) →
        strat' = strategy) := by
  intro env cur responses strategy r strat' cur' h
  cases responses with
  | nil =>
    simp only [aggregateResponses, Prod.mk.injEq, Except.ok.injEq] at h
    obtain ⟨⟨_, hs⟩, _⟩ := h
    exact ⟨by rw [← hs], by rw [← hs], fun _ => hs.symm⟩
  | cons r0 rest =>
    rw [show aggregateResponses env cur (r0 :: rest) strategy =
        (match (match strategy.promptTemplate with
                | some t =>
                  if jsEndsWith t ".xml" then
                    match env.resolveXML t with
                    | .error e => .error e
                    | .ok xmlPrompt =>
                      .ok { strategy with promptTemplate := some xmlPrompt.template }
                  else .ok strategy
                | none => .ok strategy : Except String AggregationStrategy) with
         | .error e => (.error e, cur)
         | .ok strat => aggregateDispatch env cur r0 rest strat) from rfl] at h
    cases hpt : strategy.promptTemplate with
    | none =>
      rw [hpt] at h
      have hs := aggregateDispatch_strategy_eq _ _ _ _ _ _ _ _ h
      exact ⟨by rw [hs], by rw [hs], fun _ => hs⟩
    | some t =>
      rw [hpt] at h
      dsimp only at h
      by_cases hx : jsEndsWith t ".xml" = true
      · rw [if_pos hx] at h
        cases hres : env.resolveXML t with
        | error e =>
          rw [hres] at h
          exact absurd h (by simp)
        | ok xmlPrompt =>
          rw [hres] at h
          have hs := aggregateDispatch_strategy_eq _ _ _ _ _ _ _ _ h
          refine ⟨by rw [hs], by rw [hs], fun hno => ?_⟩
          exact absurd hx (by rw [hno t rfl]; decide)
      · rw [if_neg hx] at h
        have hs := aggregateDispatch_strategy_eq _ _ _ _ _ _ _ _ h
        exact ⟨by rw [hs], by rw [hs], fun _ => hs⟩

/-- C4 amended witness: a weighted aggregation with an inline (non-xml)
prompt template preserves the strategy. -/
theorem C4_strategy_preserved_witness :
    ({ method := "weighted", promptTemplate := some "inline" } :
        AggregationStrategy).method =
      ({ method := "weighted", promptTemplate := some "inline" } :
        AggregationStrategy).method ∧
    ({ method := "weighted", promptTemplate := some "inline" } :
        AggregationStrategy).weights =
      ({ method := "weighted", promptTemplate := some "inline" } :
        AggregationStrategy).weights ∧
    ((∀ t, ({ method := "weighted", promptTemplate := some "inline" } :
        AggregationStrategy).promptTemplate = some t →
          jsEndsWith t ".xml" = false) →
      ({ method := "weighted", promptTemplate := some "inline" } :
          AggregationStrategy) =
        { method := "weighted", promptTemplate := some "inline" }) :=
  C4_strategy_preserved_unless_xml testEnv 0 [{ content := "6" }]
    { method := "weighted", promptTemplate := some "inline" } { content := "6" }
    { method := "weighted", promptTemplate := some "inline" } 0 rfl

/-- C5 counterexample.  The claim states the delivered prompt is the
template with the placeholders replaced.  JS `String.prototype.replace`
with a string pattern replaces only the FIRST occurrence: for the
template "{input} and {input}" with input "X" the prompt delivered to
the model is "X and {input}" — it still contains the literal
placeholder — whereas substituting the placeholder (spec reading,
`specSubstitute`) yields "X and X". -/
theorem C5_substitution_counterexample :
    (processLayer testEnv 0 testLayer "X" []).1 =
      .ok ([{ content := "hello" }], ["X and {input}"]) ∧
    testLayer.agents.map (fun a => a.promptTemplate) = ["{input} and {input}"] ∧
    specSubstitute "{input} and {input}" "X" "" = "X and X" ∧
    jsIncludes "X and {input}" "{input}" = true ∧
    ("X and {input}" : String) ≠ "X and X" :=
  ⟨rfl, rfl, rfl, rfl, by decide⟩

/-- For a successful layer run, the prompt delivered for agent `i` is
the agent's resolved template with the first occurrence of `{input}`
replaced by the current input and then the first occurrence of
`{previous_responses}` replaced by the newline-joined prior contents. -/
theorem processAgents_prompt_formula (env : Env) (input : String)
    (prev : List ModelResponse) :
    ∀ (agents : List Agent) (cur : Nat) (rs : List ModelResponse)
      (prompts : List String) (cur' : Nat),
      processAgents env input prev agents cur = (.ok (rs, prompts), cur') →
      ∀ i agent, agents.get? i = some agent →
        (jsEndsWith agent.promptTemplate ".xml" = false →
          prompts.get? i = some
            (jsReplaceFirst (jsReplaceFirst agent.promptTemplate "{input}" input)
              "{previous_responses}"
              (String.intercalate "\n" (prev.map (fun r => r.content))))) ∧
        (∀ xml, jsEndsWith agent.promptTemplate ".xml" = true →
          env.resolveXML agent.promptTemplate = .ok xml →
          prompts.get? i = some
            (jsReplaceFirst (jsReplaceFirst xml.template "{input}" input)
              "{previous_responses}"
              (String.intercalate "\n" (prev.map (fun r => r.content))))) := by
  intro agents
  induction agents with
  | nil =>
    intro cur rs prompts cur' h i agent hga
    simp at hga
  | cons a rest ih =>
    intro cur rs prompts cur' h i agent hga
    rw [show processAgents env input prev (a :: rest) cur =
        (match resolveAgentTemplate env a with
         | .error e => (.error e, (getNextInstance env.instances cur).2)
         | .ok (promptContent, systemPrompt) =>
           match runModel env (getNextInstance env.instances cur).2
               { a with
                   promptTemplate := buildContextualPrompt input prev promptContent,
                   systemPrompt := systemPrompt,
                   instanceUri := none }
               (buildContextualPrompt input prev promptContent) with
           | (.error e, cur2) => (.error e, cur2)
           | (.ok resp, cur2) =>
             match processAgents env input prev rest cur2 with
             | (.error e, cur3) => (.error e, cur3)
             | (.ok (rs0, prompts0), cur3) =>
               (.ok (resp :: rs0, buildContextualPrompt input prev promptContent :: prompts0),
                cur3)) from rfl] at h
    cases hres : resolveAgentTemplate env a with
    | error e =>
      rw [hres] at h
      exact absurd h (by simp)
    | ok pcsp =>
      obtain ⟨promptContent, systemPrompt⟩ := pcsp
      rw [hres] at h
      dsimp only at h
      rcases hrm : runModel env (getNextInstance env.instances cur).2
          ({ a with
               promptTemplate := buildContextualPrompt input prev promptContent,
               systemPrompt := systemPrompt,
               instanceUri := none })
          (buildContextualPrompt input prev promptContent) with ⟨o, cur2⟩
      rw [hrm] at h
      cases o with
      | error e => exact absurd h (by simp)
      | ok resp =>
        dsimp only at h
        rcases hrec : processAgents env input prev rest cur2 with ⟨o3, cur3⟩
        rw [hrec] at h
        cases o3 with
        | error e => exact absurd h (by simp)
        | ok rp0 =>
          obtain ⟨rs0, prompts0⟩ := rp0
          dsimp only at h
          simp only [Prod.mk.injEq, Except.ok.injEq] at h
          obtain ⟨⟨hrs, hprompts⟩, _⟩ := h
          -- the template delivered for the head agent
          have hpc : ∀ hx : jsEndsWith a.promptTemplate ".xml" = false,
              promptContent = a.promptTemplate := by
            intro hx
            unfold resolveAgentTemplate at hres
            rw [hx] at hres
            simp only [Bool.false_eq_true, if_false, Except.ok.injEq] at hres
            exact (Prod.mk.injEq _ _ _ _ ▸ hres).1.symm
          have hpcx : ∀ xml, jsEndsWith a.promptTemplate ".xml" = true →
              env.resolveXML a.promptTemplate = .ok xml →
              promptContent = xml.template := by
            intro xml hx hresolve
            unfold resolveAgentTemplate at hres
            rw [hx] at hres
            simp only [if_true] at hres
            rw [hresolve] at hres
            simp only [Except.ok.injEq] at hres
            exact (Prod.mk.injEq _ _ _ _ ▸ hres).1.symm
          cases i with
          | zero =>
            simp only [List.get?] at hga
            cases hga
            constructor
            · intro hx
              rw [← hprompts]
              simp only [List.get?]
              rw [hpc hx]
              rfl
            · intro xml hx hresolve
              rw [← hprompts]
              simp only [List.get?]
              rw [hpcx xml hx hresolve]
              rfl
          | succ i =>
            simp only [List.get?] at hga
            have := ih cur2 rs0 prompts0 cur3 hrec i agent hga
            rw [← hprompts]
            simpa only [List.get?] using this

/-- C5 amended.  For every agent of a layer whose run succeeds, the
prompt delivered to the agent's invocation is the agent's resolved
template (the template itself for inline templates; the resolved
document template for `.xml` references) with the FIRST occurrence of
`{input}` replaced by the current input and then the FIRST occurrence
of `{previous_responses}` replaced by the newline-joined contents of
the prior aggregated responses; later occurrences remain literal. -/
theorem C5_prompt_substitution_first_occurrence :
    ∀ (env : Env) (cur : Nat) (layer : Layer) (input : String)
      (prev : List ModelResponse) (rs : List ModelResponse)
      (prompts : List String) (cur' : Nat),
      processLayer env cur layer input prev = (.ok (rs, prompts), cur') →
      ∀ i agent, layer.agents.get? i = some agent →
        (jsEndsWith agent.promptTemplate ".xml" = false →
          prompts.get? i = some
            (jsReplaceFirst (jsReplaceFirst agent.promptTemplate "{input}" input)
              "{previous_responses}"
              (String.intercalate "\n" (prev.map (fun r => r.content))))) ∧
        (∀ xml, jsEndsWith agent.promptTemplate ".xml" = true →
          env.resolveXML agent.promptTemplate = .ok xml →
          prompts.get? i = some
            (jsReplaceFirst (jsReplaceFirst xml.template "{input}" input)
              "{previous_responses}"
              (String.intercalate "\n" (prev.map (fun r => r.content))))) := by
  intro env cur layer input prev rs prompts cur' h i agent hga
  exact processAgents_prompt_formula env input prev layer.agents cur rs prompts cur' h
    i agent hga

/-- C5 amended witness: the single agent of `testLayer` (inline
template "{input} and {input}") with input "X" and no prior responses
receives the prompt "X and {input}". -/
theorem C5_prompt_substitution_witness :
    (["X and {input}"] : List String).get? 0 = some
      (jsReplaceFirst (jsReplaceFirst "{input} and {input}" "{input}" "X")
        "{previous_responses}"
        (String.intercalate "\n" (([] : List ModelResponse).map (fun r => r.content)))) :=
  (C5_prompt_substitution_first_occurrence testEnv 0 testLayer "X" []
      [{ content := "hello" }] ["X and {input}"] 0 rfl 0
      { name := "a1", model := "ollama:m", promptTemplate := "{input} and {input}" }
      rfl).1 rfl

/-- C7 witness: concrete well-formed document with system " S " and
template " T ". -/
theorem C7_prompt_document_resolution_witness :
    ∃ res, parseXMLPrompt wfDoc = .ok res ∧ res.template = jsTrim " T " ∧
      (∀ e2 S, getElementsByTagNameFirst wfDoc "system" = some e2 →
        e2.textContent = some S → res.systemPrompt = some (jsTrim S)) ∧
      (getElementsByTagNameFirst wfDoc "system" = none → res.systemPrompt = none) :=
  (C7_prompt_document_resolution wfDoc (by decide)).1
    { tagName := "template", textContent := some " T " } " T " rfl rfl

/-- C9.  When the stop predicate holds on the history consisting of the
first layer's aggregate, the chain controller returns that aggregate at
once: the response history has length exactly 1 and exactly one layer
was processed — regardless of the configured maxIterations and of any
further configured layers. -/
theorem C9_stop_predicate_terminates_immediately :
    ∀ (env : Env) (config : MOAConfig) (input : String)
      (layer : Layer) (rest : List Layer)
      (f : List ModelResponse → Except String Bool)
      (lrs : List ModelResponse) (prompts : List String) (cur1 : Nat)
      (agg : ModelResponse) (strat : AggregationStrategy) (cur2 : Nat),
      config.layers = layer :: rest →
      config.stopCriteria = some f →
      processLayer env 0 layer input [] = (.ok (lrs, prompts), cur1) →
      lrs.filter (fun r => jsTruthy r.error) = [] →
      aggregateResponses env cur1 lrs layer.aggregationStrategy =
        (.ok (agg, strat), cur2) →
      f [agg] = .ok true →
      runMOAChain env config input = agg ∧
      chainBody env config input = .ok (agg, [agg], 1) := by
  intro env config input layer rest f lrs prompts cur1 agg strat cur2 hl hs hp hf ha hstop
  have hseq : runLayerSeq env (some f) (layer :: rest) [] input [] 0 0 =
      .ok (.inl (agg, [agg], cur2, 1)) := by
    rw [show runLayerSeq env (some f) (layer :: rest) [] input [] 0 0 =
        (match processLayer env 0 layer input [] with
         | (.error e, _) => .error e
         | (.ok (layerResponses, _prompts), cur1) =>
           match layerResponses.filter (fun r => jsTruthy r.error) with
           | e0 :: _ =>
             .error ("Layer " ++ layer.name ++ " execution failed: " ++ e0.error.getD "")
           | [] =>
             match aggregateResponses env cur1 layerResponses layer.aggregationStrategy with
             | (.error e, _) => .error e
             | (.ok (aggregated, strat1), c2) =>
               match f [aggregated] with
               | .error e => .error e
               | .ok true => .ok (.inl (aggregated, [aggregated], c2, 1))
               | .ok false =>
                 runLayerSeq env (some f) rest
                   [{ layer with aggregationStrategy := strat1 }]
                   aggregated.content [aggregated] c2 1) from rfl]
    rw [hp]
    dsimp only
    rw [hf]
    dsimp only
    rw [ha]
    dsimp only
    rw [hstop]
  have hbody : chainBody env config input = .ok (agg, [agg], 1) := by
    obtain ⟨m, hm⟩ :
        ∃ m, (if config.maxIterations = 0 then 1 else config.maxIterations) = m + 1 := by
      cases hc : config.maxIterations with
      | zero => exact ⟨0, by simp⟩
      | succ k => exact ⟨k, by simp [hc]⟩
    unfold chainBody
    rw [hl, hs, hm]
    dsimp only
    rw [show ∀ k, runIters env (some f) (k + 1) (layer :: rest) input [] 0 0 =
        (match runLayerSeq env (some f) (layer :: rest) [] input [] 0 0 with
         | .error e => .error e
         | .ok (.inl (resp, hist, c, k')) => .ok (some resp, resp.content, hist, c, k')
         | .ok (.inr (layers1, input1, hist, c, k')) =>
           runIters env (some f) k layers1 input1 hist c k') from fun _ => rfl]
    rw [hseq]
  exact ⟨by unfold runMOAChain; rw [hbody], hbody⟩

/-- C9 witness: concrete two-layer pipeline with maxIterations 5 and an
always-true stop predicate stops after the first layer with history
length 1. -/
theorem C9_stop_predicate_witness :
    runMOAChain testEnv stopConfig "X" = { content := "hello" } ∧
    chainBody testEnv stopConfig "X" =
      .ok ({ content := "hello" }, [{ content := "hello" }], 1) :=
  C9_stop_predicate_terminates_immediately testEnv stopConfig "X" testLayer [testLayer]
    (fun _ => .ok true) [{ content := "hello" }] ["X and {input}"] 0
    { content := "hello" } { method := "concatenate" } 0
    rfl rfl rfl rfl rfl rfl

/-- An accepted invocation result carries no error field and nonempty,
whitespace-trimmed content (the empty-output guard threw otherwise, and
the `catch` rewraps every failure as a thrown error, not a response). -/
theorem runModel_ok_spec :
    ∀ (env : Env) (cur : Nat) (agent : AgentConfig) (prompt : String)
      (r : ModelResponse) (cur' : Nat),
      runModel env cur agent prompt = (.ok r, cur') →
      r.error = none ∧ r.content ≠ "" ∧ jsTrim r.content = r.content := by
  intro env cur agent prompt r cur' h
  simp only [runModel] at h
  split at h
  · exact absurd h (by simp)
  · split at h
    · exact absurd h (by simp)
    · split at h
      · exact absurd h (by simp)
      · next hcond =>
        simp only [Prod.mk.injEq, Except.ok.injEq] at h
        obtain ⟨hr, _⟩ := h
        rw [← hr]
        refine ⟨rfl, ?_, jsTrim_idem _⟩
        intro hempty
        apply hcond
        right
        dsimp only at hempty
        rw [hempty]
        rfl

/-- In a successful layer run every collected response is error-free. -/
theorem processAgents_ok_no_errors (env : Env) (input : String)
    (prev : List ModelResponse) :
    ∀ (agents : List Agent) (cur : Nat) (rs : List ModelResponse)
      (prompts : List String) (cur' : Nat),
      processAgents env input prev agents cur = (.ok (rs, prompts), cur') →
      rs.filter (fun r => jsTruthy r.error) = [] := by
  intro agents
  induction agents with
  | nil =>
    intro cur rs prompts cur' h
    simp only [processAgents, Prod.mk.injEq, Except.ok.injEq] at h
    rw [← h.1.1]
    rfl
  | cons a rest ih =>
    intro cur rs prompts cur' h
    rw [show processAgents env input prev (a :: rest) cur =
        (match resolveAgentTemplate env a with
         | .error e => (.error e, (getNextInstance env.instances cur).2)
         | .ok (promptContent, systemPrompt) =>
           match runModel env (getNextInstance env.instances cur).2
               { a with
                   promptTemplate := buildContextualPrompt input prev promptContent,
                   systemPrompt := systemPrompt,
                   instanceUri := none }
               (buildContextualPrompt input prev promptContent) with
           | (.error e, cur2) => (.error e, cur2)
           | (.ok resp, cur2) =>
             match processAgents env input prev rest cur2 with
             | (.error e, cur3) => (.error e, cur3)
             | (.ok (rs0, prompts0), cur3) =>
               (.ok (resp :: rs0, buildContextualPrompt input prev promptContent :: prompts0),
                cur3)) from rfl] at h
    cases hres : resolveAgentTemplate env a with
    | error e =>
      rw [hres] at h
      exact absurd h (by simp)
    | ok pcsp =>
      obtain ⟨promptContent, systemPrompt⟩ := pcsp
      rw [hres] at h
      dsimp only at h
      rcases hrm : runModel env (getNextInstance env.instances cur).2
          ({ a with
               promptTemplate := buildContextualPrompt input prev promptContent,
               systemPrompt := systemPrompt,
               instanceUri := none })
          (buildContextualPrompt input prev promptContent) with ⟨o, cur2⟩
      rw [hrm] at h
      cases o with
      | error e => exact absurd h (by simp)
      | ok resp =>
        dsimp only at h
        rcases hrec : processAgents env input prev rest cur2 with ⟨o3, cur3⟩
        rw [hrec] at h
        cases o3 with
        | error e => exact absurd h (by simp)
        | ok rp0 =>
          obtain ⟨rs0, prompts0⟩ := rp0
          dsimp only at h
          simp only [Prod.mk.injEq, Except.ok.injEq] at h
          obtain ⟨⟨hrs, _⟩, _⟩ := h
          have hresp := runModel_ok_spec env (getNextInstance env.instances cur).2
            _ _ resp cur2 hrm
          rw [← hrs]
          rw [List.filter_cons]
          rw [show jsTruthy resp.error = false from by rw [hresp.1]; rfl]
          exact ih cur2 rs0 prompts0 cur3 hrec

/-- C10.  The agent invoker never returns an error-bearing response:
every accepted `runModel` result has no error field and nonempty,
whitespace-trimmed content; consequently, in every successful layer
run, the chain controller's filter of error-bearing responses (line
336) is empty, so the branch that fails a layer over a collected
response's error field is unreachable. -/
theorem C10_no_error_bearing_responses :
    (∀ (env : Env) (cur : Nat) (agent : AgentConfig) (prompt : String)
        (r : ModelResponse) (cur' : Nat),
        runModel env cur agent prompt = (.ok r, cur') →
        r.error = none ∧ r.content ≠ "" ∧ jsTrim r.content = r.content) ∧
    (∀ (env : Env) (cur : Nat) (layer : Layer) (input : String)
        (prev : List ModelResponse) (rs : List ModelResponse)
        (prompts : List String) (cur' : Nat),
        processLayer env cur layer input prev = (.ok (rs, prompts), cur') →
        rs.filter (fun r => jsTruthy r.error) = []) :=
  ⟨runModel_ok_spec,
   fun env cur layer input prev rs prompts cur' h =>
     processAgents_ok_no_errors env input prev layer.agents cur rs prompts cur' h⟩

/-- C10 witness: a concrete successful invocation and a concrete
successful layer run. -/
theorem C10_no_error_bearing_responses_witness :
    (({ content := "hello" } : ModelResponse).error = none ∧
      ({ content := "hello" } : ModelResponse).content ≠ "" ∧
      jsTrim ({ content := "hello" } : ModelResponse).content =
        ({ content := "hello" } : ModelResponse).content) ∧
    ([{ content := "hello" }] : List ModelResponse).filter
      (fun r => jsTruthy r.error) = [] :=
  ⟨C10_no_error_bearing_responses.1 testEnv 0
      { name := "a1", model := "ollama:m", promptTemplate := "t", instanceUri := none }
      "p" { content := "hello" } 0 rfl,
   C10_no_error_bearing_responses.2 testEnv 0 testLayer "X" []
      [{ content := "hello" }] ["X and {input}"] 0 rfl⟩

end MoaCli
